import Mathlib

/-!
# Verification of the Kirchhoff-Love thin-plate integrand

A shallow embedding of the classes `KirchhoffLovePlate` and
`KirchhoffLovePlateNorm` (headers `src/Linear/KirchhoffLovePlate.h`,
`src/ElasticBase.h`).  The repository excerpt ships only the header files:
member layout, slot-handle conventions and a few inline bodies
(`hasTractionValues`, `getIntegrandType`, `ElasticBase::getNoFields`) come
from the headers, while every out-of-line member function body is modelled
from the specification, as indicated by each definition's doc comment.

Scalars are exact rationals for the integrand (the C++ uses `double`; the
claims under study are exact algebraic identities, so `ℚ` is adequate and
keeps every definition executable) and real numbers for the norm
finalization, where a square root occurs.  Matrices are lists of rows,
mirroring the dynamically sized `Matrix`/`Vector` objects of the code.
-/

namespace IFEM

/-- Cartesian point or direction (external class `Vec3`). -/
structure Vec3 where
  x : ℚ
  y : ℚ
  z : ℚ
deriving DecidableEq, Repr, Inhabited

/-- Dynamically sized vector of scalars (external class `Vector`). -/
abbrev Vec := List ℚ

/-- Dynamically sized matrix, stored as its list of rows
(external class `Matrix`). -/
abbrev Mat := List Vec

/-- Dot product of two coefficient lists. -/
def dot (u v : Vec) : ℚ :=
  (List.zipWith (fun a b => a * b) u v).sum

/-- Matrix times vector: one dot product per row. -/
def matVecMul (M : Mat) (v : Vec) : Vec :=
  M.map (fun r => dot r v)

/-- Number of columns of a row-list matrix (length of its first row). -/
def nCols (M : Mat) : ℕ :=
  (M.headD []).length

/-- Column `j` of a row-list matrix (missing entries read as 0). -/
def colOf (M : Mat) (j : ℕ) : Vec :=
  M.map (fun r => r.getD j 0)

/-- Transpose of a row-list matrix. -/
def matTrans (M : Mat) : Mat :=
  (List.range (nCols M)).map (colOf M)

/-- Matrix product: entry (i,j) is row i of `A` dotted with column j of `B`. -/
def matMul (A B : Mat) : Mat :=
  A.map (fun r => (matTrans B).map (fun c => dot r c))

/-- Scalar multiple of a vector. -/
def scaleVec (c : ℚ) (v : Vec) : Vec :=
  v.map (fun a => c * a)

/-- Scalar multiple of a matrix. -/
def matScale (c : ℚ) (M : Mat) : Mat :=
  M.map (fun r => scaleVec c r)

/-- Entrywise sum of two vectors. -/
def vecAdd (u v : Vec) : Vec :=
  List.zipWith (fun a b => a + b) u v

/-- Entrywise sum of two matrices. -/
def matAdd (A B : Mat) : Mat :=
  List.zipWith vecAdd A B

/-- Outer product of two vectors. -/
def outer (u v : Vec) : Mat :=
  u.map (fun a => scaleVec a v)

/-- Zero vector of a given length. -/
def zeroVec (n : ℕ) : Vec :=
  List.replicate n 0

/-- Zero matrix of given numbers of rows and columns. -/
def zeroMat (m n : ℕ) : Mat :=
  List.replicate m (zeroVec n)

/-- Material capability (external class `Material`, §6 of the spec):
a stateless function of position producing the 3×3 constitutive operator
(direct or inverse form) and a mass density. -/
structure Material where
  Cmat : Vec3 → Bool → Mat
  massDensity : Vec3 → ℚ

/-- Local coordinate system for stress-resultant output (external class
`LocalSystem`): a 3×3 rotation applied to stress-resultant vectors. -/
structure LocalSystem where
  rot : Vec3 → Mat

/-- The configuration and slot-handle state of a `KirchhoffLovePlate`
integrand, after the protected members of the header (lines 181-200):
1-based element-matrix/vector handles `eK`, `eM`, `eS` (0 = not requested),
material, thickness, gravity, optional local system and pressure field,
and the number of space dimensions. -/
structure KirchhoffLovePlate where
  eK : ℕ
  eM : ℕ
  eS : ℕ
  material : Material
  thickness : ℚ
  gravity : ℚ
  locSys : Option LocalSystem
  presFld : Option (Vec3 → ℚ)
  nsd : ℕ

/-- Finite element data supplied by the caller at one integration point
(external struct `FiniteElement`): basis values `N` (one per node), the
second-derivative tensor `d2NdX2` (per node, an `nsd × nsd` block), the
differential weight `detJxW`, and the externally supplied global point
index `iGP` used for boundary points. -/
structure FiniteElement where
  N : Vec
  d2NdX2 : List (List (List ℚ))
  detJxW : ℚ
  iGP : ℕ

/-- The per-element accumulator (external class `ElmMats`/`LocalIntegral`):
a list of element matrices `A` and a list of element vectors `b`, addressed
through the 1-based handles of the integrand. -/
structure ElmMats where
  A : List Mat
  b : List Vec

/-- Add a contribution `M` into matrix slot `h` (1-based; `h = 0` means the
slot is not requested and the contribution is dropped).  Accumulation is
addition, never overwrite (spec §6). -/
def addTo (l : List Mat) (h : ℕ) (M : Mat) : List Mat :=
  if h = 0 then l else l.set (h - 1) (matAdd (l.getD (h - 1) []) M)

/-- Add a contribution `v` into vector slot `h` (1-based; `h = 0` drops it). -/
def addToV (l : List Vec) (h : ℕ) (v : Vec) : List Vec :=
  if h = 0 then l else l.set (h - 1) (vecAdd (l.getD (h - 1) []) v)

/-- Matrix slot `h` of an accumulator (1-based handle). -/
def getMat (st : ElmMats) (h : ℕ) : Mat :=
  st.A.getD (h - 1) []

/-- Vector slot `h` of an accumulator (1-based handle). -/
def getVec (st : ElmMats) (h : ℕ) : Vec :=
  st.b.getD (h - 1) []

/-- Whether one node's second-derivative block is a well-formed 2×2 block
(plate case, `nsd = 2`). -/
def blkOk (blk : List (List ℚ)) : Bool :=
  blk.length = 2 && blk.all (fun r => r.length = 2)

/-- Entry (i,j) of a node's second-derivative block. -/
def d2 (blk : List (List ℚ)) (i j : ℕ) : ℚ :=
  (blk.getD i []).getD j 0

/-- First row of the curvature-displacement operator: per node, the three
degree-of-freedom columns receive the κ_xx contribution `∂²N/∂x²` on the
deflection column. -/
def bRow1 : List (List (List ℚ)) → Vec
  | [] => []
  | blk :: rest => d2 blk 0 0 :: 0 :: 0 :: bRow1 rest

/-- Second row of the curvature-displacement operator (κ_yy, `∂²N/∂y²`). -/
def bRow2 : List (List (List ℚ)) → Vec
  | [] => []
  | blk :: rest => d2 blk 1 1 :: 0 :: 0 :: bRow2 rest

/-- Third row of the curvature-displacement operator
(twist, `2·∂²N/∂x∂y`). -/
def bRow3 : List (List (List ℚ)) → Vec
  | [] => []
  | blk :: rest => 2 * d2 blk 0 1 :: 0 :: 0 :: bRow3 rest

/-- Modelled from the spec: `KirchhoffLovePlate::formBmatrix` (declared at
header line 170, body not in src/).  Per spec §3 and §4.1, B is a
3×(3·nodeCount) matrix built purely from the second-derivative basis data
(rows: κ_xx, κ_yy, twist), and the call fails — signalling degenerate
second-derivative data — when a rank-consistent operator cannot be formed,
modelled as some node's block not being a well-formed 2×2 block.  The
placement of the per-node entries on the deflection column is a documented
modelling choice; no claim under study depends on individual entries. -/
def formBmatrix (d2N : List (List (List ℚ))) : Option Mat :=
  if d2N.all blkOk then some [bRow1 d2N, bRow2 d2N, bRow3 d2N] else none

/-- Modelled from the spec: `KirchhoffLovePlate::formCmatrix` (header line
178, body not in src/).  Obtains the constitutive operator from the
material at the given position and forms the bending-rigidity operator
`D = C · thickness³/12`, or the compliance (inverse) form scaled by
`12/thickness³` when `invers` is requested (spec §4.1 step 2). -/
def formCmatrix (kl : KirchhoffLovePlate) (X : Vec3) (invers : Bool) : Mat :=
  if invers then matScale (12 / kl.thickness ^ 3) (kl.material.Cmat X true)
  else matScale (kl.thickness ^ 3 / 12) (kl.material.Cmat X false)

/-- Basis values broadcast across the three displacement degrees of freedom
of each node: the deflection column carries the basis value, the rotation
columns carry 0 (rotary-inertia terms excluded — the implementation choice
the spec leaves open in §9). -/
def dofVec : Vec → Vec
  | [] => []
  | a :: rest => a :: 0 :: 0 :: dofVec rest

/-- The three accumulations of an interior point once B is available
(spec §4.1 steps 2-5): stiffness `Bᵗ·D·B·weight` into slot `eK`, consistent
mass `(ρ·t)·Nᵗ·N·weight` into slot `eM`, gravity load `(ρ·t·g)·N·weight`
into slot `eS`. -/
def evalIntAdd (kl : KirchhoffLovePlate) (fe : FiniteElement) (X : Vec3)
    (B : Mat) (st : ElmMats) : ElmMats :=
  let D := formCmatrix kl X false
  let rho := kl.material.massDensity X
  let Nd := dofVec fe.N
  let A1 := addTo st.A kl.eK
      (matScale fe.detJxW (matMul (matMul (matTrans B) D) B))
  let A2 := addTo A1 kl.eM
      (matScale (rho * kl.thickness * fe.detJxW) (outer Nd Nd))
  let b1 := addToV st.b kl.eS
      (scaleVec (rho * kl.thickness * kl.gravity * fe.detJxW) Nd)
  ⟨A2, b1⟩

/-- Modelled from the spec: `KirchhoffLovePlate::evalInt` (header lines
82-83, body not in src/).  Per spec §4.1: build B from the point's
second-derivative data, failing (and leaving the accumulator untouched) on
degenerate data; otherwise accumulate stiffness, mass and load and report
success. -/
def evalInt (kl : KirchhoffLovePlate) (fe : FiniteElement) (X : Vec3)
    (st : ElmMats) : Bool × ElmMats :=
  match formBmatrix fe.d2NdX2 with
  | none => (false, st)
  | some B => (true, evalIntAdd kl fe X B st)

/-- Modelled from the spec: `KirchhoffLovePlate::getPressure` (header line
114, body not in src/): evaluates the configured pressure field, or 0 if
none is configured (spec §4.1). -/
def getPressure (kl : KirchhoffLovePlate) (X : Vec3) : ℚ :=
  match kl.presFld with
  | some p => p X
  | none => 0

/-- Modelled from the spec: `KirchhoffLovePlate::evalBou` (header lines
91-92, body not in src/).  Per spec §4.1: evaluate the pressure at the
point, accumulate `pressure · N · weight` into the load slot, and record
the evaluated pressure into the pressure-value buffer (header member
`presVal`, line 198, passed here as explicit state `pv`) at the point's
externally supplied index. -/
def evalBou (kl : KirchhoffLovePlate) (fe : FiniteElement) (X normal : Vec3)
    (st : ElmMats) (pv : List (Vec3 × ℚ)) :
    Bool × ElmMats × List (Vec3 × ℚ) :=
  let p := getPressure kl X
  (true,
   ⟨st.A, addToV st.b kl.eS (scaleVec (p * fe.detJxW) (dofVec fe.N))⟩,
   pv.set fe.iGP (X, p))

/-- Modelled from the spec: the local-vector form of
`KirchhoffLovePlate::evalSol` (header lines 109-111, body not in src/).
Per spec §4.1: curvature = B · elementVector, stress resultants
= D · curvature; when a local coordinate system is configured and
`toLocal` is requested, the 3-component resultant is rotated into the
local basis; fails exactly when B cannot be formed. -/
def evalSol (kl : KirchhoffLovePlate) (eV : Vec) (fe : FiniteElement)
    (X : Vec3) (toLocal : Bool) : Option Vec :=
  match formBmatrix fe.d2NdX2 with
  | none => none
  | some B =>
    let m := matVecMul (formCmatrix kl X false) (matVecMul B eV)
    match kl.locSys, toLocal with
    | some cs, true => some (matVecMul (cs.rot X) m)
    | _, _ => some m

/-- Modelled from the spec: `KirchhoffLovePlate::getLocalIntegral` (header
lines 74-75, body not in src/).  Per spec §4.1: a new accumulator sized for
`nen` nodes (three degrees of freedom per node); in a Neumann/boundary pass
only a load-vector slot is required, otherwise stiffness, mass and load
slots are all requested. -/
def getLocalIntegral (kl : KirchhoffLovePlate) (nen : ℕ) (neumann : Bool) :
    ElmMats :=
  if neumann then ⟨[], [zeroVec (3 * nen)]⟩
  else ⟨[zeroMat (3 * nen) (3 * nen), zeroMat (3 * nen) (3 * nen)],
        [zeroVec (3 * nen)]⟩

/-- Modelled from the spec: `KirchhoffLovePlate::initIntegration` (header
line 68, body not in src/): pre-allocates the pressure-value buffer
(member `presVal`) to exactly `nBp` entries (spec §4.1). -/
def initIntegration (nGp nBp : ℕ) : List (Vec3 × ℚ) :=
  List.replicate nBp (⟨0, 0, 0⟩, 0)

/-- `KirchhoffLovePlate::hasTractionValues`, inline in the header (line
128): `return !presVal.empty();`. -/
def hasTractionValues (pv : List (Vec3 × ℚ)) : Bool :=
  !pv.isEmpty

/-- Modelled from the spec: `KirchhoffLovePlate::getNoFields` (header line
139, body not in src/).  Per spec §4.1 field metadata: 3 for the primary
field set (plate deflection plus two rotations) and a fixed count for the
secondary stress-resultant set — the three bending-moment components
`M_xx`, `M_yy`, `M_xy` of spec §3 — independent of configuration. -/
def getNoFields (kl : KirchhoffLovePlate) (fld : ℕ) : ℕ :=
  if fld = 1 then 3 else 3

/-- `ElasticBase::getNoFields`, inline in `src/ElasticBase.h` (line 65):
`return fld == 1 ? npv : 0;`. -/
def elasticBaseGetNoFields (npv : ℕ) (fld : ℤ) : ℕ :=
  if fld = 1 then npv else 0

/-- Per-element norm buffer of `KirchhoffLovePlateNorm` (spec §3
NormResult / §4.2): squared energy-norm accumulations, the estimated and
exact error norms, and the two derived quantities produced at element
finalization. -/
structure ElmNorm where
  feNormSq : ℝ
  exactNormSq : ℝ
  errorNormSq : ℝ
  estErrNorm : ℝ
  exactErrNorm : ℝ
  relError : ℝ
  effectivity : ℝ

/-- Modelled from the spec: `KirchhoffLovePlateNorm::finalizeElement`
(header line 240, body not in src/).  Per spec §4.2: once per element,
relative error = `100·√(errorNormSq / exactNormSq)` — 0 when the exact
norm is numerically zero, the guard of spec §7 — and effectivity index
= estimatedErrorNorm / exactErrorNorm when both are meaningful (modelled:
both nonzero), 0 otherwise; always succeeds. -/
noncomputable def finalizeElement (en : ElmNorm) : Bool × ElmNorm :=
  let rel := if en.exactNormSq = 0 then 0
             else 100 * Real.sqrt (en.errorNormSq / en.exactNormSq)
  let eff := if en.estErrNorm ≠ 0 ∧ en.exactErrNorm ≠ 0
             then en.estErrNorm / en.exactErrNorm else 0
  (true, { en with relError := rel, effectivity := eff })

/-! ### Concrete fixtures used to witness the theorems below -/

/-- An isotropic-looking test material: identity constitutive operator,
unit mass density. -/
def matUnit : Material :=
  ⟨fun _ _ => [[1, 0, 0], [0, 1, 0], [0, 0, 1]], fun _ => 1⟩

/-- A fully configured test integrand: stiffness slot 1, mass slot 2,
load slot 1, unit thickness and gravity, no local system, no pressure
field, two space dimensions. -/
def klUnit : KirchhoffLovePlate :=
  ⟨1, 2, 1, matUnit, 1, 1, none, none, 2⟩

/-- A test evaluation point. -/
def XUnit : Vec3 := ⟨0, 0, 0⟩

/-- Well-formed second-derivative data for a 3-node element. -/
def d2Ngood : List (List (List ℚ)) :=
  [[[1, 0], [0, 1]], [[0, 1], [1, 0]], [[1, 1], [1, 1]]]

/-- Finite element data with well-formed second derivatives. -/
def feGood : FiniteElement := ⟨[1, 1, 1], d2Ngood, 1, 0⟩

/-- Finite element data whose second-derivative block is degenerate (not a
2×2 block), so that the curvature operator cannot be formed. -/
def feBad : FiniteElement := ⟨[1], [[[1]]], 1, 0⟩

/-- The curvature operator formed from `d2Ngood`. -/
def Bgood : Mat := [bRow1 d2Ngood, bRow2 d2Ngood, bRow3 d2Ngood]

/-- A zero-initialized accumulator for a 3-node element with stiffness and
mass matrix slots and one load-vector slot. -/
def stUnit : ElmMats := ⟨[zeroMat 9 9, zeroMat 9 9], [zeroVec 9]⟩

/-- A test element solution vector. -/
def eVUnit : Vec := [1, 0, 0, 0, 0, 0, 0, 0, 0]

/-- A zeroed norm buffer. -/
def enZero : ElmNorm := ⟨0, 0, 0, 0, 0, 0, 0⟩

/-! ### Helper lemmas -/

theorem bRow1_length (l : List (List (List ℚ))) :
    (bRow1 l).length = 3 * l.length := by
  induction l with
  | nil => simp [bRow1]
  | cons blk rest ih =>
    simp only [bRow1, List.length_cons, ih]
    omega

theorem bRow2_length (l : List (List (List ℚ))) :
    (bRow2 l).length = 3 * l.length := by
  induction l with
  | nil => simp [bRow2]
  | cons blk rest ih =>
    simp only [bRow2, List.length_cons, ih]
    omega

theorem bRow3_length (l : List (List (List ℚ))) :
    (bRow3 l).length = 3 * l.length := by
  induction l with
  | nil => simp [bRow3]
  | cons blk rest ih =>
    simp only [bRow3, List.length_cons, ih]
    omega

theorem dot_zero_right (r v : Vec) (hv : ∀ x ∈ v, x = 0) : dot r v = 0 := by
  induction r generalizing v with
  | nil => simp [dot]
  | cons a r ih =>
    cases v with
    | nil => simp [dot]
    | cons b v =>
      have hb : b = 0 := hv b (List.mem_cons_self b v)
      have hv' : ∀ x ∈ v, x = 0 := fun x hx => hv x (List.mem_cons_of_mem b hx)
      simp only [dot, List.zipWith_cons_cons, List.sum_cons, hb, mul_zero,
        zero_add]
      exact ih v hv'

theorem matVecMul_zero_right (M : Mat) (v : Vec) (hv : ∀ x ∈ v, x = 0) :
    ∀ y ∈ matVecMul M v, y = 0 := by
  intro y hy
  simp only [matVecMul, List.mem_map] at hy
  obtain ⟨r, _, rfl⟩ := hy
  exact dot_zero_right r v hv

theorem zeroVec_length (n : ℕ) : (zeroVec n).length = n := by
  simp [zeroVec]

theorem zeroVec_entries (n : ℕ) : ∀ x ∈ zeroVec n, x = 0 := by
  intro x hx
  exact List.eq_of_mem_replicate hx

theorem zeroMat_rows (m n : ℕ) : (zeroMat m n).length = m := by
  simp [zeroMat]

theorem zeroMat_row_mem (m n : ℕ) : ∀ r ∈ zeroMat m n, r = zeroVec n := by
  intro r hr
  exact List.eq_of_mem_replicate hr

theorem getD_addTo_self (l : List Mat) (h : ℕ) (M : Mat) (hh : h ≠ 0)
    (hl : h - 1 < l.length) :
    (addTo l h M).getD (h - 1) [] = matAdd (l.getD (h - 1) []) M := by
  simp [addTo, hh, List.getD_eq_getElem?_getD, List.getElem?_set_self hl]

theorem getD_addTo_other (l : List Mat) (h k : ℕ) (M : Mat)
    (hne : h = 0 ∨ h - 1 ≠ k) :
    (addTo l h M).getD k [] = l.getD k [] := by
  rcases hne with hh | hne
  · simp [addTo, hh]
  · by_cases hh : h = 0
    · simp [addTo, hh]
    · simp [addTo, hh, List.getD_eq_getElem?_getD, List.getElem?_set_ne hne]

theorem getD_addToV_self (l : List Vec) (h : ℕ) (v : Vec) (hh : h ≠ 0)
    (hl : h - 1 < l.length) :
    (addToV l h v).getD (h - 1) [] = vecAdd (l.getD (h - 1) []) v := by
  simp [addToV, hh, List.getD_eq_getElem?_getD, List.getElem?_set_self hl]

/-! ### The claims -/

/-- C1: for every interior integration point at which `evalInt` succeeds
(B was formed), the contribution added into the stiffness slot of the
accumulator equals `Bᵗ·D·B·weight`, where `D` is the constitutive operator
returned by the configured material at the point's position scaled by
`thickness³/12`. -/
theorem evalInt_stiffness_contribution (kl : KirchhoffLovePlate)
    (fe : FiniteElement) (X : Vec3) (st : ElmMats) (B : Mat)
    (hB : formBmatrix fe.d2NdX2 = some B) (hK : kl.eK ≠ 0)
    (hKlen : kl.eK - 1 < st.A.length) (hKM : kl.eM ≠ kl.eK) :
    (evalInt kl fe X st).1 = true ∧
    getMat (evalInt kl fe X st).2 kl.eK =
      matAdd (getMat st kl.eK)
        (matScale fe.detJxW
          (matMul
            (matMul (matTrans B)
              (matScale (kl.thickness ^ 3 / 12) (kl.material.Cmat X false)))
            B)) := by
  constructor
  · simp [evalInt, hB]
  · have hor : kl.eM = 0 ∨ kl.eM - 1 ≠ kl.eK - 1 := by omega
    simp only [evalInt, hB, getMat, evalIntAdd, formCmatrix,
      Bool.false_eq_true, if_false]
    rw [getD_addTo_other _ _ _ _ hor, getD_addTo_self _ _ _ hK hKlen]

/-- C1 witness: the stiffness contribution at a concrete 3-node element. -/
theorem evalInt_stiffness_contribution_inst :
    (evalInt klUnit feGood XUnit stUnit).1 = true ∧
    getMat (evalInt klUnit feGood XUnit stUnit).2 klUnit.eK =
      matAdd (getMat stUnit klUnit.eK)
        (matScale feGood.detJxW
          (matMul
            (matMul (matTrans Bgood)
              (matScale (klUnit.thickness ^ 3 / 12)
                (klUnit.material.Cmat XUnit false)))
            Bgood)) :=
  evalInt_stiffness_contribution klUnit feGood XUnit stUnit Bgood
    rfl (by decide) (by decide) (by decide)

/-- C2: whenever `formBmatrix` succeeds on an element with at least three
nodes, the resulting curvature-displacement operator has exactly 3 rows
and exactly `3·nodeCount` columns. -/
theorem formBmatrix_shape (d2N : List (List (List ℚ))) (B : Mat)
    (hnen : 3 ≤ d2N.length) (hB : formBmatrix d2N = some B) :
    B.length = 3 ∧ ∀ r ∈ B, r.length = 3 * d2N.length := by
  have hBv : B = [bRow1 d2N, bRow2 d2N, bRow3 d2N] := by
    by_cases hok : d2N.all blkOk = true
    · simp only [formBmatrix, hok, if_true, Option.some.injEq] at hB
      exact hB.symm
    · simp [formBmatrix, hok] at hB
  subst hBv
  refine ⟨rfl, ?_⟩
  intro r hr
  simp only [List.mem_cons, List.not_mem_nil, or_false] at hr
  rcases hr with h | h | h <;> subst h
  · exact bRow1_length d2N
  · exact bRow2_length d2N
  · exact bRow3_length d2N

/-- C2 witness: the operator formed from the concrete 3-node data. -/
theorem formBmatrix_shape_inst :
    Bgood.length = 3 ∧ ∀ r ∈ Bgood, r.length = 3 * d2Ngood.length :=
  formBmatrix_shape d2Ngood Bgood (by decide) rfl

/-- C3: the local-vector form of `evalSol` fails exactly when B cannot be
formed; on success it returns `D·(B·elementVector)`, rotated into the
local basis when a local coordinate system is configured and `toLocal` is
requested, and unrotated otherwise. -/
theorem evalSol_local_form (kl : KirchhoffLovePlate) (eV : Vec)
    (fe : FiniteElement) (X : Vec3) (toLocal : Bool) :
    (evalSol kl eV fe X toLocal = none ↔ formBmatrix fe.d2NdX2 = none)
  ∧ (∀ B, formBmatrix fe.d2NdX2 = some B → ∀ cs, kl.locSys = some cs →
      toLocal = true →
      evalSol kl eV fe X toLocal =
        some (matVecMul (cs.rot X)
          (matVecMul (formCmatrix kl X false) (matVecMul B eV))))
  ∧ (∀ B, formBmatrix fe.d2NdX2 = some B →
      (kl.locSys = none ∨ toLocal = false) →
      evalSol kl eV fe X toLocal =
        some (matVecMul (formCmatrix kl X false) (matVecMul B eV))) := by
  refine ⟨?_, ?_, ?_⟩
  · cases hB : formBmatrix fe.d2NdX2 with
    | none => simp [evalSol, hB]
    | some B =>
      simp only [evalSol, hB]
      cases hcs : kl.locSys <;> cases toLocal <;> simp
  · intro B hB cs hcs ht
    subst ht
    simp [evalSol, hB, hcs]
  · intro B hB hor
    rcases hor with hcs | ht
    · cases toLocal <;> simp [evalSol, hB, hcs]
    · subst ht
      cases hcs : kl.locSys <;> simp [evalSol, hB, hcs]

/-- C3 witness: the unrotated branch at a concrete point (no local system
configured). -/
theorem evalSol_local_form_inst :
    evalSol klUnit eVUnit feGood XUnit false =
      some (matVecMul (formCmatrix klUnit XUnit false)
        (matVecMul Bgood eVUnit)) :=
  (evalSol_local_form klUnit eVUnit feGood XUnit false).2.2 Bgood
    rfl (Or.inr rfl)

/-- C4: at an interior point whose second-derivative data is degenerate
(B cannot be formed), `evalInt` returns false and the accumulator —
stiffness, mass and load slots included — is exactly what it was before
the call. -/
theorem evalInt_degenerate_no_contribution (kl : KirchhoffLovePlate)
    (fe : FiniteElement) (X : Vec3) (st : ElmMats)
    (hB : formBmatrix fe.d2NdX2 = none) :
    (evalInt kl fe X st).1 = false ∧ (evalInt kl fe X st).2 = st := by
  simp [evalInt, hB]

/-- C4 witness: a concrete degenerate point leaves a concrete accumulator
untouched. -/
theorem evalInt_degenerate_no_contribution_inst :
    (evalInt klUnit feBad XUnit stUnit).1 = false ∧
    (evalInt klUnit feBad XUnit stUnit).2 = stUnit :=
  evalInt_degenerate_no_contribution klUnit feBad XUnit stUnit rfl

/-- C5: `finalizeElement` always succeeds; the relative error is 0 when
the exact norm is zero and `100·√(errorNormSq/exactNormSq)` otherwise; the
effectivity index is `estErrNorm/exactErrNorm` when both are meaningful
(nonzero) and 0 otherwise; and the relative error is never negative. -/
theorem finalizeElement_guards (en : ElmNorm) :
    (finalizeElement en).1 = true
  ∧ (en.exactNormSq = 0 → (finalizeElement en).2.relError = 0)
  ∧ (en.exactNormSq ≠ 0 → (finalizeElement en).2.relError =
      100 * Real.sqrt (en.errorNormSq / en.exactNormSq))
  ∧ (en.estErrNorm ≠ 0 ∧ en.exactErrNorm ≠ 0 →
      (finalizeElement en).2.effectivity = en.estErrNorm / en.exactErrNorm)
  ∧ (¬(en.estErrNorm ≠ 0 ∧ en.exactErrNorm ≠ 0) →
      (finalizeElement en).2.effectivity = 0)
  ∧ 0 ≤ (finalizeElement en).2.relError := by
  refine ⟨rfl, ?_, ?_, ?_, ?_, ?_⟩
  · intro h
    simp [finalizeElement, h]
  · intro h
    simp [finalizeElement, h]
  · intro h
    simp [finalizeElement, h]
  · intro h
    simp [finalizeElement, h]
  · by_cases h : en.exactNormSq = 0
    · simp [finalizeElement, h]
    · simp only [finalizeElement, h, if_false]
      positivity

/-- C5 witness: the zero norm buffer finalizes with success, zero relative
error and zero effectivity. -/
theorem finalizeElement_guards_inst :
    (finalizeElement enZero).1 = true
  ∧ (finalizeElement enZero).2.relError = 0
  ∧ (finalizeElement enZero).2.effectivity = 0 :=
  ⟨(finalizeElement_guards enZero).1,
   (finalizeElement_guards enZero).2.1 rfl,
   (finalizeElement_guards enZero).2.2.2.2.1 (by simp [enZero])⟩

/-- C6: `getLocalIntegral` returns a freshly zero-initialized accumulator
sized for `nen` nodes; in a Neumann (boundary) pass only a load-vector
slot is present, otherwise stiffness, mass and load slots are all
present. -/
theorem getLocalIntegral_slots (kl : KirchhoffLovePlate) (nen : ℕ) :
    (getLocalIntegral kl nen true).A = []
  ∧ (getLocalIntegral kl nen true).b.length = 1
  ∧ (getLocalIntegral kl nen false).A.length = 2
  ∧ (getLocalIntegral kl nen false).b.length = 1
  ∧ (∀ M ∈ (getLocalIntegral kl nen false).A,
      M.length = 3 * nen ∧ ∀ r ∈ M, r.length = 3 * nen ∧ ∀ x ∈ r, x = 0)
  ∧ (∀ v ∈ (getLocalIntegral kl nen true).b ++ (getLocalIntegral kl nen false).b,
      v.length = 3 * nen ∧ ∀ x ∈ v, x = 0) := by
  refine ⟨rfl, rfl, rfl, rfl, ?_, ?_⟩
  · intro M hM
    have hMz : M = zeroMat (3 * nen) (3 * nen) := by
      simp only [getLocalIntegral, if_false, Bool.false_eq_true,
        List.mem_cons, List.not_mem_nil, or_false] at hM
      rcases hM with h | h <;> exact h
    subst hMz
    refine ⟨zeroMat_rows _ _, ?_⟩
    intro r hr
    have hrz := zeroMat_row_mem _ _ r hr
    subst hrz
    exact ⟨zeroVec_length _, zeroVec_entries _⟩
  · intro v hv
    have hvz : v = zeroVec (3 * nen) := by
      simp only [getLocalIntegral, if_false, if_true, Bool.false_eq_true,
        List.mem_append, List.mem_cons, List.not_mem_nil, or_false] at hv
      rcases hv with h | h <;> exact h
    subst hvz
    exact ⟨zeroVec_length _, zeroVec_entries _⟩

/-- C6 witness: the interior-pass accumulator of a concrete 2-node element
holds a zero stiffness matrix of the right size. -/
theorem getLocalIntegral_slots_inst :
    (zeroMat (3 * 2) (3 * 2)).length = 3 * 2 ∧
    ∀ r ∈ zeroMat (3 * 2) (3 * 2), r.length = 3 * 2 ∧ ∀ x ∈ r, x = 0 :=
  (getLocalIntegral_slots klUnit 2).2.2.2.2.1 (zeroMat (3 * 2) (3 * 2))
    (by decide)

/-- C7: `evalBou` succeeds, evaluates the pressure at the point (0 when no
pressure field is configured), adds `pressure·N·weight` into the load
slot, and records the evaluated pressure into the pressure-value buffer at
the point's externally supplied index. -/
theorem evalBou_pressure_load (kl : KirchhoffLovePlate) (fe : FiniteElement)
    (X normal : Vec3) (st : ElmMats) (pv : List (Vec3 × ℚ))
    (hS : kl.eS ≠ 0) (hSlen : kl.eS - 1 < st.b.length) :
    (evalBou kl fe X normal st pv).1 = true
  ∧ getVec (evalBou kl fe X normal st pv).2.1 kl.eS =
      vecAdd (getVec st kl.eS)
        (scaleVec (getPressure kl X * fe.detJxW) (dofVec fe.N))
  ∧ (evalBou kl fe X normal st pv).2.2 = pv.set fe.iGP (X, getPressure kl X)
  ∧ (kl.presFld = none → getPressure kl X = 0) := by
  refine ⟨rfl, ?_, rfl, ?_⟩
  · simp only [evalBou, getVec]
    exact getD_addToV_self st.b kl.eS _ hS hSlen
  · intro h
    simp [getPressure, h]

/-- C7 witness: a concrete boundary point with no pressure field
configured. -/
theorem evalBou_pressure_load_inst :
    (evalBou klUnit feGood XUnit XUnit stUnit []).1 = true
  ∧ getVec (evalBou klUnit feGood XUnit XUnit stUnit []).2.1 klUnit.eS =
      vecAdd (getVec stUnit klUnit.eS)
        (scaleVec (getPressure klUnit XUnit * feGood.detJxW) (dofVec feGood.N))
  ∧ (evalBou klUnit feGood XUnit XUnit stUnit []).2.2 =
      List.set [] feGood.iGP (XUnit, getPressure klUnit XUnit)
  ∧ (klUnit.presFld = none → getPressure klUnit XUnit = 0) :=
  evalBou_pressure_load klUnit feGood XUnit XUnit stUnit []
    (by decide) (by decide)

/-- C8: applying the local-vector form of `evalSol` to a zero
element-displacement vector returns a zero stress-resultant vector,
whenever B can be formed, for every configured material and local
system. -/
theorem evalSol_zero_vector (kl : KirchhoffLovePlate) (eV : Vec)
    (fe : FiniteElement) (X : Vec3) (toLocal : Bool)
    (h0 : ∀ x ∈ eV, x = 0) (hB : (formBmatrix fe.d2NdX2).isSome = true) :
    ∃ s, evalSol kl eV fe X toLocal = some s ∧ ∀ x ∈ s, x = 0 := by
  obtain ⟨B, hBe⟩ := Option.isSome_iff_exists.mp hB
  have h1 : ∀ x ∈ matVecMul B eV, x = 0 := matVecMul_zero_right B eV h0
  have h2 : ∀ x ∈ matVecMul (formCmatrix kl X false) (matVecMul B eV), x = 0 :=
    matVecMul_zero_right _ _ h1
  cases hcs : kl.locSys with
  | none =>
    refine ⟨matVecMul (formCmatrix kl X false) (matVecMul B eV), ?_, h2⟩
    cases toLocal <;> simp [evalSol, hBe, hcs]
  | some cs =>
    cases toLocal with
    | false =>
      refine ⟨matVecMul (formCmatrix kl X false) (matVecMul B eV), ?_, h2⟩
      simp [evalSol, hBe, hcs]
    | true =>
      refine ⟨matVecMul (cs.rot X)
        (matVecMul (formCmatrix kl X false) (matVecMul B eV)), ?_,
        matVecMul_zero_right _ _ h2⟩
      simp [evalSol, hBe, hcs]

/-- C8 witness: the zero element vector at a concrete point. -/
theorem evalSol_zero_vector_inst :
    ∃ s, evalSol klUnit (zeroVec 9) feGood XUnit false = some s ∧
      ∀ x ∈ s, x = 0 :=
  evalSol_zero_vector klUnit (zeroVec 9) feGood XUnit false
    (zeroVec_entries 9) rfl

/-- C9: `getNoFields 1` is 3 (deflection plus two rotations) and
`getNoFields 2` is a fixed count for the secondary stress-resultant set,
the same for every configuration. -/
theorem getNoFields_counts (kl kl' : KirchhoffLovePlate) :
    getNoFields kl 1 = 3 ∧ getNoFields kl 2 = 3 ∧
    getNoFields kl 2 = getNoFields kl' 2 :=
  ⟨rfl, rfl, rfl⟩

/-- C10: `hasTractionValues` is true exactly when the pressure-value
buffer is non-empty; `initIntegration` pre-allocates that buffer to
exactly `nBp` entries, so with `nBp > 0` the predicate holds right after
initialization, before any boundary point is evaluated. -/
theorem hasTractionValues_nonempty (pv : List (Vec3 × ℚ)) (nGp nBp : ℕ) :
    (hasTractionValues pv = true ↔ pv ≠ [])
  ∧ (initIntegration nGp nBp).length = nBp
  ∧ (0 < nBp → hasTractionValues (initIntegration nGp nBp) = true) := by
  refine ⟨?_, by simp [initIntegration], ?_⟩
  · simp [hasTractionValues]
  · intro h
    simp [hasTractionValues, initIntegration]
    omega

/-- C10 witness: after initialization with two boundary points the
traction predicate already holds. -/
theorem hasTractionValues_nonempty_inst :
    hasTractionValues (initIntegration 0 2) = true :=
  (hasTractionValues_nonempty [] 0 2).2.2 (by decide)

end IFEM
